import Mathlib

/-!
Verification of the `DataCleaner` tabular-cleaning class
(`src/data_cleaning/data_cleaner.py`, with the duplicate variant
`src/data-cleaning/data_cleaner.py`).

The class wraps one mutable pandas `DataFrame` (`self.df`).  We shallow-embed a
DataFrame as a `Table`: an ordered list of named, dtype-tagged columns of
cells, plus an explicit row-index list (pandas keeps a row index that survives
row-dropping operations unless `reset_index` is called, so it must be modelled
explicitly).

Each Python method is embedded as a function `Table → args → Table × Option Err`.
The `Table` component is the state of `self.df` at method exit, whether the
method returned normally (`none`) or raised (`some e`): the embedding mirrors
the source statement by statement, so a method that mutated `self.df` before
raising would show that mutation in the returned `Table`.

Numeric cells are modelled as exact rationals `PyNum` (pandas float64
arithmetic on the small values used here, taken at exact precision); strings
as Lean `String`; NaN/null as `Value.missing`.  `pd.sort_values` with its
default `kind='quicksort'` only promises a sorted permutation of the rows
(per the pandas documentation only `mergesort`/`stable` are stable), so
`sort_column` is embedded as a relation on tables rather than a function.
-/

namespace DC

/-! ## Exact rational numbers that compute in the kernel -/

/-- Fuel-driven Euclid so that gcd reduces by kernel iota (the fuel bounds the
first argument, which strictly decreases). -/
def natGcdF : Nat → Nat → Nat → Nat
  | 0, _, n => n
  | _ + 1, 0, n => n
  | f + 1, m + 1, n => natGcdF f (n % (m + 1)) (m + 1)

def natGcd (m n : Nat) : Nat := natGcdF (m + 1) m n

/-- An exact rational `num / den`, kept in lowest terms with `den > 0` by the
smart constructor `mkNum`; the model never builds one any other way. -/
structure PyNum where
  num : Int
  den : Nat
deriving DecidableEq, Repr

/-- Normalising constructor (den `0` only from the unused division-by-zero
corner, which every call site of the model guards against). -/
def mkNum (n : Int) (d : Nat) : PyNum :=
  if d = 0 then ⟨0, 0⟩
  else
    let g := natGcd n.natAbs d
    if 0 ≤ n then ⟨(n.natAbs / g : Nat), d / g⟩ else ⟨-(n.natAbs / g : Nat), d / g⟩

def pnInt (n : Int) : PyNum := ⟨n, 1⟩

def PyNum.add (a b : PyNum) : PyNum :=
  mkNum (a.num * b.den + b.num * a.den) (a.den * b.den)

def PyNum.div (a b : PyNum) : PyNum :=
  if 0 ≤ b.num then mkNum (a.num * b.den) (a.den * b.num.natAbs)
  else mkNum (-(a.num * b.den)) (a.den * b.num.natAbs)

/-- Numeric order `a ≤ b` by cross multiplication (dens are nonnegative). -/
def PyNum.le (a b : PyNum) : Bool := a.num * b.den ≤ b.num * a.den

/-- Numeric equality by cross multiplication (value equality, like `==` on
pandas numbers, rather than representation equality). -/
def PyNum.eqv (a b : PyNum) : Bool := a.num * b.den = b.num * a.den

def pySum (l : List PyNum) : PyNum := l.foldr PyNum.add (pnInt 0)

/-! ## Python string primitives used by the source -/

/-- Does `pat` occur at the head of `l`? -/
def leadsWith : List Char → List Char → Bool
  | [], _ => true
  | _ :: _, [] => false
  | p :: ps, c :: cs => p == c && leadsWith ps cs

/-- Is `pat` a substring (contiguous) of `l`? -/
def hasSub (pat : List Char) : List Char → Bool
  | [] => leadsWith pat []
  | c :: cs => leadsWith pat (c :: cs) || hasSub pat cs

/-- One left-to-right pass deleting every non-overlapping occurrence of the
pattern `p :: ps`: the semantics of Python `str.replace(pat, "")` for a
nonempty pattern.  `skip` counts characters still to swallow from a match
already recognised (structural recursion on the list so the kernel can
evaluate it). -/
def removeAllAux (p : Char) (ps : List Char) : Nat → List Char → List Char
  | _, [] => []
  | 0, c :: cs =>
    if leadsWith (p :: ps) (c :: cs) then removeAllAux p ps ps.length cs
    else c :: removeAllAux p ps 0 cs
  | k + 1, _ :: cs => removeAllAux p ps k cs

def removeAll (p : Char) (ps : List Char) (l : List Char) : List Char :=
  removeAllAux p ps 0 l

/-- Python `s.replace(pat, "")` (the `regex=False` path of
`pandas.Series.str.replace`); replacing an empty pattern by `""` is the
identity in Python. -/
def pyReplace (s pat : String) : String :=
  match pat.data with
  | [] => s
  | p :: ps => ⟨removeAll p ps s.data⟩

/-- The whitespace characters recognised by Python `str.strip()` (ASCII
range; the dispatch and test strings of this development are ASCII). -/
def isPySpace (c : Char) : Bool :=
  c == ' ' || c == '\t' || c == '\n' || c == '\r' || c == '\x0b' || c == '\x0c'

def stripList (l : List Char) : List Char :=
  ((l.dropWhile isPySpace).reverse.dropWhile isPySpace).reverse

/-- Python `str.strip()`. -/
def pyStrip (s : String) : String := ⟨stripList s.data⟩

/-- ASCII lowering of one character, as Python `str.lower()` does on the
basic latin range (the aggregation keywords are ASCII). -/
def pyLowerChar (c : Char) : Char :=
  let n := c.toNat
  if 65 ≤ n ∧ n ≤ 90 then Char.ofNat (n + 32) else c

/-- Python `str.lower()` (ASCII range). -/
def pyLower (s : String) : String := ⟨s.data.map pyLowerChar⟩

def decDigitsVal (l : List Char) : Nat :=
  l.foldl (fun a c => a * 10 + (c.toNat - 48)) 0

/-- Python `float(s)` on finite decimal literals: optional surrounding
whitespace, optional sign, digits with at most one dot, at least one digit
(`"1."` and `".5"` parse, `"."` and `""` do not).  Exponents and the
`inf`/`nan` words are outside the modelled subset. -/
def parseFloat (s : String) : Option PyNum :=
  let l := stripList s.data
  let withBody := fun (sg : Int) (body : List Char) =>
    match body.splitOn '.' with
    | [ip] =>
      if ip ≠ [] ∧ ip.all Char.isDigit then some (mkNum (sg * decDigitsVal ip) 1)
      else none
    | [ip, fp] =>
      if (ip ≠ [] ∨ fp ≠ []) ∧ ip.all Char.isDigit ∧ fp.all Char.isDigit then
        some (mkNum (sg * (decDigitsVal ip * 10 ^ fp.length + decDigitsVal fp)) (10 ^ fp.length))
      else none
    | _ => none
  match l with
  | '-' :: rest => withBody (-1) rest
  | '+' :: rest => withBody 1 rest
  | _ => withBody 1 l

/-! ## Cells, columns, tables -/

/-- One DataFrame cell: an exact numeric, a string, or NaN/null. -/
inductive Value where
  | num (q : PyNum)
  | str (s : String)
  | missing
deriving DecidableEq, Repr

/-- The dtype split the source tests (`.dtypes != "object"`): pandas `object`
columns versus numeric (int64/float64) columns. -/
inductive Dtype where
  | object
  | numeric
deriving DecidableEq, Repr

structure Col where
  dtype : Dtype
  cells : List Value
deriving DecidableEq, Repr

/-- A DataFrame: ordered named columns plus the row-index labels.  The index
is explicit because pandas row indices survive `dropna`/boolean filtering and
are only renumbered by `reset_index`. -/
structure Table where
  cols : List (String × Col)
  index : List Nat
deriving DecidableEq, Repr

def Table.nrows (t : Table) : Nat := t.index.length

/-- All columns aligned with the index: the DataFrame shape invariant. -/
def Table.wf (t : Table) : Prop := ∀ p ∈ t.cols, p.2.cells.length = t.index.length

instance (t : Table) : Decidable t.wf := List.decidableBAll _ t.cols

/-- Model of `self.df[c]` — `some` column or a Python `KeyError`. -/
def getCol (t : Table) (c : String) : Option Col :=
  (t.cols.find? (fun p => p.1 == c)).map (·.2)

/-- Model of `self.df[c] = col` on an existing column `c` (same position, new content). -/
def setCol (t : Table) (c : String) (k : Col) : Table :=
  ⟨t.cols.map (fun p => if p.1 == c then (c, k) else p), t.index⟩

def nonNull : Value → Bool
  | .missing => false
  | _ => true

def isNumV : Value → Bool
  | .num _ => true
  | _ => false

def isStrV : Value → Bool
  | .str _ => true
  | _ => false

def numsOf (cs : List Value) : List PyNum :=
  cs.filterMap (fun v => match v with | .num q => some q | _ => none)

/-- Model of `Series.mean()` with pandas NaN skipping: mean of the non-missing values. -/
def meanOf (cs : List Value) : PyNum :=
  PyNum.div (pySum (numsOf cs)) (pnInt (numsOf cs).length)

/-- Model of `Series.fillna(fill)`; filling with NaN itself is a no-op, which the
first equation also yields when `fill = .missing`. -/
def fillNA (fill : Value) : Value → Value
  | .missing => fill
  | v => v

/-- Elementwise `==` of pandas: NaN compares unequal to everything (itself
included); numbers compare by value; values of different kinds are unequal. -/
def pandasEq : Value → Value → Bool
  | .missing, _ => false
  | _, .missing => false
  | .num a, .num b => PyNum.eqv a b
  | .str a, .str b => a == b
  | .num _, .str _ => false
  | .str _, .num _ => false

/-- Elementwise `Series.str.<op>` behaviour on an object column: strings are
mapped, NaN stays NaN, and non-string elements become NaN. -/
def strCell (f : String → String) : Value → Value
  | .str s => .str (f s)
  | _ => .missing

/-- Boolean-mask row selection: keep the positions of `xs` whose aligned
guide cell satisfies `keep` (order preserved, nothing renumbered). -/
def maskKeep (keep : Value → Bool) (guide : List Value) (xs : List α) : List α :=
  ((guide.zip xs).filter (fun p => keep p.1)).map (·.2)

/-- Lexicographic `≤` on strings by code point (Python string comparison). -/
def strLeB : List Char → List Char → Bool
  | [], _ => true
  | _ :: _, [] => false
  | a :: as, b :: bs => if a = b then strLeB as bs else decide (a.toNat < b.toNat)

/-- Comparison key used by pandas when ordering cells of one column: numbers
by value, strings lexicographically.  (pandas raises on cross-kind
comparisons; this total extension only matters for mixed-kind columns, which
the claims do not exercise.) -/
def valueLe : Value → Value → Bool
  | .num a, .num b => PyNum.le a b
  | .str a, .str b => strLeB a.data b.data
  | .num _, _ => true
  | _, .num _ => false
  | .str _, _ => true
  | _, .str _ => false
  | .missing, .missing => true

/-- Cell order realised by `sort_values`: NaN is placed last
(`na_position='last'`), other cells by `valueLe`, flipped when descending. -/
def naLastLe (ascending : Bool) : Value → Value → Bool
  | _, .missing => true
  | .missing, _ => false
  | a, b => if ascending then valueLe a b else valueLe b a

def chainB (r : α → α → Bool) : List α → Bool
  | [] => true
  | [_] => true
  | a :: b :: l => r a b && chainB r (b :: l)

/-- Lexicographic order on group-by key tuples. -/
def valListLe : List Value → List Value → Bool
  | [], _ => true
  | _ :: _, [] => false
  | a :: as, b :: bs => if a = b then valListLe as bs else valueLe a b

/-- Error classes of the source: Python `KeyError` (absent column), the bare
`Exception` of `remove_text`, `TypeError` (non-text `strip_spaces`, numeric
ops on object columns), `ValueError` (float conversion, length mismatch,
empty group-by list). -/
inductive Err where
  | keyError
  | exception
  | typeError
  | valueError
deriving DecidableEq, Repr

/-! ## The methods of `DataCleaner` (src/data_cleaning/data_cleaner.py)

Each embeds one method as `Table → args → Table × Option Err`: the table
component is `self.df` at method exit (mutations are visible even when an
error is reported, mirroring source statement order). -/

namespace data_cleaning

/-- Method `remove_text` (lines 15-24), with the default literal `regex=False` path:
checks `self.df[column].dtypes != "object"` (raising `KeyError` first if the
column is absent, then the bare `Exception`), then assigns
`self.df[column].str.replace(text, "", regex=False)`. -/
def remove_text (t : Table) (column text : String) : Table × Option Err :=
  match getCol t column with
  | none => (t, some .keyError)
  | some col =>
    if col.dtype ≠ .object then (t, some .exception)
    else (setCol t column ⟨.object, col.cells.map (strCell (fun s => pyReplace s text))⟩, none)

/-- Method `strip_spaces` (lines 26-33): dtype check raising `TypeError`, then
assigns `self.df[column].str.strip()`. -/
def strip_spaces (t : Table) (column : String) : Table × Option Err :=
  match getCol t column with
  | none => (t, some .keyError)
  | some col =>
    if col.dtype ≠ .object then (t, some .typeError)
    else (setCol t column ⟨.object, col.cells.map (strCell pyStrip)⟩, none)

/-- Method `handle_missing` (lines 35-48).  `"mean"` fills NaN with
`self.df[column].mean()` (NaN-skipping mean; raises `TypeError` on string
content, and filling with a NaN mean of an all-missing column is a no-op);
`"zero"` fills NaN with `0`; `"drop"` is `self.df.dropna(subset=[column])`,
which does NOT reset the index; any other strategy is a silent no-op. -/
def handle_missing (t : Table) (column strategy : String) : Table × Option Err :=
  if strategy = "mean" then
    match getCol t column with
    | none => (t, some .keyError)
    | some col =>
      if col.cells.any isStrV then (t, some .typeError)
      else
        let fill := if (numsOf col.cells).length = 0 then Value.missing
                    else Value.num (meanOf col.cells)
        (setCol t column ⟨col.dtype, col.cells.map (fillNA fill)⟩, none)
  else if strategy = "zero" then
    match getCol t column with
    | none => (t, some .keyError)
    | some col =>
      (setCol t column ⟨col.dtype, col.cells.map (fillNA (.num (pnInt 0)))⟩, none)
  else if strategy = "drop" then
    match getCol t column with
    | none => (t, some .keyError)
    | some col =>
      (⟨t.cols.map (fun p => (p.1, ⟨p.2.dtype, maskKeep nonNull col.cells p.2.cells⟩)),
        maskKeep nonNull col.cells t.index⟩, none)
  else (t, none)

/-- Method `drop` (lines 50-55): `self.df.drop(columns=columns)`, `KeyError` if any
name is absent. -/
def drop (t : Table) (columns : List String) : Table × Option Err :=
  if columns.any (fun c => (getCol t c).isNone) then (t, some .keyError)
  else (⟨t.cols.filter (fun p => !(columns.contains p.1)), t.index⟩, none)

/-- Method `save_data` (lines 57-66): `to_csv` inside `try/except` — the file write
is I/O outside the table model; the table is never mutated and no error ever
propagates (an I/O failure is only printed). -/
def save_data (t : Table) (_output_path : String) : Table × Option Err :=
  (t, none)

/-- Method `preview` (lines 68-73): returns `self.df.head(n)`, no mutation. -/
def preview (t : Table) (n : Nat) : Table :=
  ⟨t.cols.map (fun p => (p.1, ⟨p.2.dtype, p.2.cells.take n⟩)), t.index.take n⟩

def floatCell : Value → Option Value
  | .num q => some (.num q)
  | .missing => some .missing
  | .str s => (parseFloat s).map .num

/-- Method `to_float` (lines 75-80): `self.df[column].astype(float)`; a string cell
that does not parse raises `ValueError` before any assignment. -/
def to_float (t : Table) (column : String) : Table × Option Err :=
  match getCol t column with
  | none => (t, some .keyError)
  | some col =>
    match col.cells.mapM floatCell with
    | none => (t, some .valueError)
    | some cs => (setCol t column ⟨.numeric, cs⟩, none)

/-- Round half to even at integer precision (numpy/pandas `round`, taken at
exact precision on the model's rationals). -/
def roundHalfEven (q : PyNum) : Int :=
  let fl := q.num.fdiv q.den
  let r := q.num - fl * q.den
  if 2 * r < (q.den : Int) then fl
  else if (q.den : Int) < 2 * r then fl + 1
  else if fl % 2 = 0 then fl else fl + 1

def roundVal (decimals : Nat) : Value → Value
  | .num q =>
    .num (mkNum (roundHalfEven (mkNum (q.num * 10 ^ decimals) q.den)) (10 ^ decimals))
  | v => v

/-- Method `round` (lines 82-88): `self.df[column].round(decimals)`; numpy rejects
rounding an object column (no assignment happens), NaN rounds to NaN. -/
def round (t : Table) (column : String) (decimals : Nat) : Table × Option Err :=
  match getCol t column with
  | none => (t, some .keyError)
  | some col =>
    if col.dtype = .object then (t, some .typeError)
    else (setCol t column ⟨.numeric, col.cells.map (roundVal decimals)⟩, none)

def inferDtype (items : List Value) : Dtype :=
  if items.any isStrV then .object else .numeric

/-- Method `new_column` (lines 90-96): `self.df[column] = items`; a list whose
length differs from the row count raises `ValueError` without assigning; an
existing name is overwritten in place, a new one appended. -/
def new_column (t : Table) (column : String) (items : List Value) : Table × Option Err :=
  if items.length ≠ t.nrows then (t, some .valueError)
  else if (getCol t column).isSome then (setCol t column ⟨inferDtype items, items⟩, none)
  else (⟨t.cols ++ [(column, ⟨inferDtype items, items⟩)], t.index⟩, none)

/-! ### `sort_column` (lines 98-107)

`self.df.sort_values(by=column, ascending=ascending)` followed by
`reset_index(drop=True)`.  The default `kind='quicksort'` of `sort_values`
promises a permutation of the rows ordered by the column (NaN last), and the
pandas documentation marks only `mergesort`/`stable` as stable, so the call
is embedded as the relation `sortOk` between the table before and the table
after: schema unchanged, rows a permutation, the sort column ordered, and the
index renumbered densely by `reset_index(drop=True)`. -/

def schemaOf (t : Table) : List (String × Dtype) :=
  t.cols.map (fun p => (p.1, p.2.dtype))

/-- Row `i` of the table, cells in column order. -/
def rowAt (t : Table) (i : Nat) : List Value :=
  t.cols.map (fun p => p.2.cells.getD i .missing)

def rowsOf (t : Table) : List (List Value) :=
  (List.range t.nrows).map (rowAt t)

def sortedColB (t : Table) (column : String) (ascending : Bool) : Bool :=
  (getCol t column).any (fun col => chainB (naLastLe ascending) col.cells)

def sortOk (t : Table) (column : String) (ascending : Bool) (t' : Table) : Prop :=
  (getCol t column).isSome = true ∧
  schemaOf t' = schemaOf t ∧
  t'.wf ∧
  (rowsOf t').Perm (rowsOf t) ∧
  t'.index = List.range t.nrows ∧
  sortedColB t' column ascending = true

instance (t : Table) (c : String) (asc : Bool) (t' : Table) :
    Decidable (sortOk t c asc t') := by
  unfold sortOk
  infer_instance

/-- One execution of `sort_column`: either the column is absent and
`sort_values` raises `KeyError` with `self.df` untouched, or it returns
normally with any outcome the quicksort contract allows. -/
def sortStep (t : Table) (column : String) (ascending : Bool)
    (r : Table × Option Err) : Prop :=
  match getCol t column with
  | none => r = (t, some .keyError)
  | some _ => r.2 = none ∧ sortOk t column ascending r.1

/-! ### `aggregate_data` (lines 112-147)

`self.df.groupby(columns)` (Python `ValueError` on an empty list, `KeyError`
on an absent name; rows whose key holds NaN are dropped; the reduced frame is
indexed by the sorted distinct keys since `groupby` defaults to `sort=True`),
then one reduction chosen by `aggregate_method.lower()` with `mean` as the
fallback, then `reset_index(drop=False)` turning the keys back into leading
columns with a dense row index.  Per the stated policy for non-numeric
columns (spec §9), the numeric reductions mean/sum/median silently drop
non-key object columns; min/max/count keep them. -/

def vminAcc : Value → Value → Value
  | v, .missing => v
  | v, acc => if valueLe v acc then v else acc

def vmaxAcc : Value → Value → Value
  | v, .missing => v
  | v, acc => if valueLe acc v then v else acc

def aggMean (cs : List Value) : Value :=
  if (numsOf cs).length = 0 then .missing else .num (meanOf cs)

def aggSum (cs : List Value) : Value := .num (pySum (numsOf cs))

def aggMin (cs : List Value) : Value :=
  (cs.filter nonNull).foldl (fun acc v => vminAcc v acc) .missing

def aggMax (cs : List Value) : Value :=
  (cs.filter nonNull).foldl (fun acc v => vmaxAcc v acc) .missing

def aggCount (cs : List Value) : Value := .num (pnInt (cs.filter nonNull).length)

def pnLeP (a b : PyNum) : Prop := PyNum.le a b = true

instance : DecidableRel pnLeP := fun a b => by unfold pnLeP; infer_instance

def aggMedian (cs : List Value) : Value :=
  let qs := List.insertionSort pnLeP (numsOf cs)
  let n := qs.length
  if n = 0 then .missing
  else if n % 2 = 1 then .num (qs.getD (n / 2) (pnInt 0))
  else .num (PyNum.div (PyNum.add (qs.getD (n / 2 - 1) (pnInt 0)) (qs.getD (n / 2) (pnInt 0)))
    (pnInt 2))

def dtypeOfCol (t : Table) (c : String) : Dtype :=
  match getCol t c with
  | some col => col.dtype
  | none => .object

def cellAt (col : Col) (i : Nat) : Value := col.cells.getD i .missing

/-- The group key of row `i` for key columns `G`. -/
def keyAt (t : Table) (G : List String) (i : Nat) : List Value :=
  G.map (fun c => match getCol t c with | some col => cellAt col i | none => .missing)

/-- Rows that survive group-by: those whose key has no NaN component. -/
def validRows (t : Table) (G : List String) : List Nat :=
  (List.range t.nrows).filter (fun i => (keyAt t G i).all nonNull)

def keyLeP (a b : List Value) : Prop := valListLe a b = true

instance : DecidableRel keyLeP := fun a b => by unfold keyLeP; infer_instance

/-- The distinct group keys, sorted ascending (`groupby(..., sort=True)`). -/
def keysOf (t : Table) (G : List String) : List (List Value) :=
  List.insertionSort keyLeP ((validRows t G).map (keyAt t G)).dedup

/-- The grouped-and-reduced frame after `reset_index(drop=False)`:
key columns first (in `G` order), then the reduced value columns (in frame
order), one row per key, dense index. -/
def groupAgg (t : Table) (G : List String) (f : List Value → Value)
    (resD : Dtype → Dtype) (dropObj : Bool) : Table :=
  let ks := keysOf t G
  let vr := validRows t G
  let keyCols := t |> fun t => (List.range G.length).map (fun j =>
    (G.getD j "", Col.mk (dtypeOfCol t (G.getD j ""))
      (ks.map (fun k => k.getD j .missing))))
  let valCols := (t.cols.filter
      (fun p => !(G.contains p.1) && (!dropObj || p.2.dtype == .numeric))).map
    (fun p => (p.1, Col.mk (resD p.2.dtype)
      (ks.map (fun k => f ((vr.filter (fun i => decide (keyAt t G i = k))).map (cellAt p.2))))))
  ⟨keyCols ++ valCols, List.range ks.length⟩

def numD : Dtype → Dtype := fun _ => .numeric

def aggregate_data (t : Table) (columns : List String) (aggregate_method : String) :
    Table × Option Err :=
  if columns = [] then (t, some .valueError)
  else if columns.any (fun c => (getCol t c).isNone) then (t, some .keyError)
  else if pyLower aggregate_method = "mean" then (groupAgg t columns aggMean numD true, none)
  else if pyLower aggregate_method = "min" then (groupAgg t columns aggMin id false, none)
  else if pyLower aggregate_method = "max" then (groupAgg t columns aggMax id false, none)
  else if pyLower aggregate_method = "sum" then (groupAgg t columns aggSum numD true, none)
  else if pyLower aggregate_method = "count" then (groupAgg t columns aggCount numD false, none)
  else if pyLower aggregate_method = "median" then (groupAgg t columns aggMedian numD true, none)
  else (groupAgg t columns aggMean numD true, none)

/-- Method `filter_by_column` (lines 149-155): `self.df = self.df[self.df[column] == value]`
— boolean-mask selection by elementwise pandas equality; kept rows stay in
order and KEEP their index labels (no `reset_index`). -/
def filter_by_column (t : Table) (column : String) (value : Value) : Table × Option Err :=
  match getCol t column with
  | none => (t, some .keyError)
  | some col =>
    (⟨t.cols.map (fun p => (p.1, ⟨p.2.dtype, maskKeep (fun x => pandasEq x value) col.cells p.2.cells⟩)),
      maskKeep (fun x => pandasEq x value) col.cells t.index⟩, none)

/-- The operations of the class that can raise, `sort_column` apart (it is
relational, see `sortStep`), tagged with their arguments. -/
inductive Op where
  | removeText (column text : String)
  | stripSpaces (column : String)
  | handleMissing (column strategy : String)
  | dropCols (columns : List String)
  | toFloat (column : String)
  | roundCol (column : String) (decimals : Nat)
  | newColumn (column : String) (items : List Value)
  | aggregateData (columns : List String) (method : String)
  | filterByColumn (column : String) (value : Value)

def runOp (op : Op) (t : Table) : Table × Option Err :=
  match op with
  | .removeText c s => remove_text t c s
  | .stripSpaces c => strip_spaces t c
  | .handleMissing c s => handle_missing t c s
  | .dropCols cs => drop t cs
  | .toFloat c => to_float t c
  | .roundCol c d => round t c d
  | .newColumn c items => new_column t c items
  | .aggregateData cs m => aggregate_data t cs m
  | .filterByColumn c v => filter_by_column t c v

end data_cleaning

/-! ## The duplicate variant (src/data-cleaning/data_cleaner.py)

The second copy of the class defines `remove_text` (literal-only: it has no
`regex` parameter and always passes `regex=False`), `strip_spaces`,
`handle_missing`, `drop`, `save_data`, `preview`, `to_float`, `round` and
`new_column`, with bodies identical to the first copy; it stops before
`sort_column`.  Embedded separately so the two surfaces can be compared. -/

namespace data_cleaning_dash

/-- Method `remove_text` (dash variant, lines 15-23): no `regex` parameter, always
`str.replace(text, "", regex=False)`. -/
def remove_text (t : Table) (column text : String) : Table × Option Err :=
  match getCol t column with
  | none => (t, some .keyError)
  | some col =>
    if col.dtype ≠ .object then (t, some .exception)
    else (setCol t column ⟨.object, col.cells.map (strCell (fun s => pyReplace s text))⟩, none)

/-- Method `strip_spaces` (dash variant, lines 25-32). -/
def strip_spaces (t : Table) (column : String) : Table × Option Err :=
  match getCol t column with
  | none => (t, some .keyError)
  | some col =>
    if col.dtype ≠ .object then (t, some .typeError)
    else (setCol t column ⟨.object, col.cells.map (strCell pyStrip)⟩, none)

/-- Method `handle_missing` (dash variant, lines 34-47). -/
def handle_missing (t : Table) (column strategy : String) : Table × Option Err :=
  if strategy = "mean" then
    match getCol t column with
    | none => (t, some .keyError)
    | some col =>
      if col.cells.any isStrV then (t, some .typeError)
      else
        let fill := if (numsOf col.cells).length = 0 then Value.missing
                    else Value.num (meanOf col.cells)
        (setCol t column ⟨col.dtype, col.cells.map (fillNA fill)⟩, none)
  else if strategy = "zero" then
    match getCol t column with
    | none => (t, some .keyError)
    | some col =>
      (setCol t column ⟨col.dtype, col.cells.map (fillNA (.num (pnInt 0)))⟩, none)
  else if strategy = "drop" then
    match getCol t column with
    | none => (t, some .keyError)
    | some col =>
      (⟨t.cols.map (fun p => (p.1, ⟨p.2.dtype, maskKeep nonNull col.cells p.2.cells⟩)),
        maskKeep nonNull col.cells t.index⟩, none)
  else (t, none)

/-- Method `drop` (dash variant, lines 49-54). -/
def drop (t : Table) (columns : List String) : Table × Option Err :=
  if columns.any (fun c => (getCol t c).isNone) then (t, some .keyError)
  else (⟨t.cols.filter (fun p => !(columns.contains p.1)), t.index⟩, none)

/-- Method `save_data` (dash variant, lines 56-65). -/
def save_data (t : Table) (_output_path : String) : Table × Option Err :=
  (t, none)

/-- Method `preview` (dash variant, lines 67-72). -/
def preview (t : Table) (n : Nat) : Table :=
  ⟨t.cols.map (fun p => (p.1, ⟨p.2.dtype, p.2.cells.take n⟩)), t.index.take n⟩

/-- Method `to_float` (dash variant, lines 74-79). -/
def to_float (t : Table) (column : String) : Table × Option Err :=
  match getCol t column with
  | none => (t, some .keyError)
  | some col =>
    match col.cells.mapM data_cleaning.floatCell with
    | none => (t, some .valueError)
    | some cs => (setCol t column ⟨.numeric, cs⟩, none)

/-- Method `round` (dash variant, lines 81-87). -/
def round (t : Table) (column : String) (decimals : Nat) : Table × Option Err :=
  match getCol t column with
  | none => (t, some .keyError)
  | some col =>
    if col.dtype = .object then (t, some .typeError)
    else (setCol t column ⟨.numeric, col.cells.map (data_cleaning.roundVal decimals)⟩, none)

/-- Method `new_column` (dash variant, lines 89-95). -/
def new_column (t : Table) (column : String) (items : List Value) : Table × Option Err :=
  if items.length ≠ t.nrows then (t, some .valueError)
  else if (getCol t column).isSome then
    (setCol t column ⟨data_cleaning.inferDtype items, items⟩, none)
  else (⟨t.cols ++ [(column, ⟨data_cleaning.inferDtype items, items⟩)], t.index⟩, none)

end data_cleaning_dash

/-! ## Supporting definitions for the claim statements -/

def c1Table : Table :=
  ⟨[("c", ⟨.numeric, [.missing, .num (pnInt 1)]⟩)], [0, 1]⟩

/-- A `PyNum` in canonical form: positive denominator, lowest terms. -/
def PyNum.reduced (q : PyNum) : Prop := 0 < q.den ∧ q.num.natAbs.Coprime q.den

instance (q : PyNum) : Decidable q.reduced := by unfold PyNum.reduced; infer_instance

/-- A cell whose numeric content (if any) is in canonical form; every numeric
cell the model's operations construct is. -/
def reducedV : Value → Prop
  | .num q => q.reduced
  | _ => True

instance (v : Value) : Decidable (reducedV v) := by
  unfold reducedV; cases v <;> infer_instance

def c5Table : Table :=
  ⟨[("c", ⟨.numeric, [.num (pnInt 1), .num (pnInt 2), .num (pnInt 1)]⟩)], [0, 1, 2]⟩

def c6Table : Table :=
  ⟨[("c", ⟨.numeric, [.num (pnInt 1), .missing, .num (pnInt 3)]⟩)], [0, 1, 2]⟩

def c8Table : Table := ⟨[("c", ⟨.object, [.str "  a  ", .missing]⟩)], [0, 1]⟩

def c4Table : Table := ⟨[("c", ⟨.object, [.str "aabb"]⟩)], [0]⟩

def c7Table : Table :=
  ⟨[("G", ⟨.object, [.str "a", .str "a"]⟩),
    ("x", ⟨.numeric, [.num (pnInt 1), .num (pnInt 3)]⟩)], [0, 1]⟩

/-- Position of column `c` in the row layout. -/
def keyIdx (t : Table) (c : String) : Nat := t.cols.findIdx (fun p => p.1 == c)

/-- Row comparison by the sort column's cell (the key `sort_values` uses). -/
def rowKeyLe (t : Table) (c : String) (asc : Bool) (r1 r2 : List Value) : Prop :=
  naLastLe asc (r1.getD (keyIdx t c) .missing) (r2.getD (keyIdx t c) .missing) = true

instance (t : Table) (c : String) (asc : Bool) : DecidableRel (rowKeyLe t c asc) :=
  fun r1 r2 => by unfold rowKeyLe; infer_instance

/-- The rows in the order a STABLE sort by the `c` column would produce
(insertion sort is stable, so this is the unique stable outcome);
the claim's "rows with equal C values keep their relative order" says the
result rows are exactly these. -/
def stableSortedRows (t : Table) (c : String) (asc : Bool) : List (List Value) :=
  List.insertionSort (rowKeyLe t c asc) (data_cleaning.rowsOf t)

def c2Table : Table :=
  ⟨[("k", ⟨.object, [.str "a", .str "a"]⟩),
    ("v", ⟨.object, [.str "x", .str "y"]⟩)], [0, 1]⟩

def c2Swapped : Table :=
  ⟨[("k", ⟨.object, [.str "a", .str "a"]⟩),
    ("v", ⟨.object, [.str "y", .str "x"]⟩)], [0, 1]⟩

def c2In : Table := ⟨[("k", ⟨.numeric, [.num (pnInt 2), .num (pnInt 1)]⟩)], [0, 1]⟩

def c2Out : Table := ⟨[("k", ⟨.numeric, [.num (pnInt 1), .num (pnInt 2)]⟩)], [0, 1]⟩

def c3Table : Table := ⟨[("n", ⟨.numeric, [.num (pnInt 1)]⟩)], [0]⟩



/-! ## General lemmas about column access -/

theorem getCol_mapCols (t : Table) (idx : List Nat) (h : Col → Col) (c : String) :
    getCol ⟨t.cols.map (fun p => (p.1, h p.2)), idx⟩ c = (getCol t c).map h := by
  unfold getCol
  simp only []
  induction t.cols with
  | nil => rfl
  | cons a as ih =>
    simp only [List.map_cons, List.find?_cons]
    by_cases ha : a.1 == c
    · simp [ha]
    · simp only [ha, Bool.false_eq_true, if_neg]
      exact ih

theorem getCol_setCol_self (t : Table) (c : String) (k : Col) (col : Col)
    (h : getCol t c = some col) : getCol (setCol t c k) c = some k := by
  unfold getCol at h ⊢
  unfold setCol
  simp only []
  revert h
  generalize t.cols = as
  induction as with
  | nil => intro h; simp at h
  | cons a as ih =>
    intro h
    by_cases ha : a.1 == c
    · simp only [List.map_cons, if_pos ha]
      rw [List.find?_cons_of_pos _ (by simp)]
      rfl
    · have hf : (if (a.1 == c) = true then (c, k) else a) = a := by simp [ha]
      rw [List.find?_cons_of_neg _ (by simp [ha])] at h
      simp only [List.map_cons, hf]
      rw [List.find?_cons_of_neg _ (by simp [ha])]
      exact ih h

theorem setCol_setCol (t : Table) (c : String) (k k' : Col) :
    setCol (setCol t c k) c k' = setCol t c k' := by
  unfold setCol
  simp only [List.map_map, Table.mk.injEq, and_true]
  refine List.map_congr_left (fun a _ => ?_)
  by_cases ha : a.1 == c
  · simp [ha, Function.comp]
  · simp [ha, Function.comp]

/-! ## Claim C1 — `handle_missing(C, "drop")` -/

/-- C1 (amended): for every table and every column `C` present in it,
`handle_missing(C, "drop")` succeeds and the resulting table contains exactly
the rows where `C` was not missing, in their original relative order, every
column filtered consistently; but the row indices are NOT renumbered — each
kept row retains its pre-drop index label (`dropna` is not followed by
`reset_index` in the source). -/
theorem c1_drop_keeps_nonmissing_rows_without_reindex
    (t : Table) (c : String) (col : Col) (hc : getCol t c = some col) :
    (data_cleaning.handle_missing t c "drop").2 = none ∧
    (data_cleaning.handle_missing t c "drop").1.index =
      maskKeep nonNull col.cells t.index ∧
    ∀ name colX, getCol t name = some colX →
      getCol (data_cleaning.handle_missing t c "drop").1 name =
        some ⟨colX.dtype, maskKeep nonNull col.cells colX.cells⟩ := by
  unfold data_cleaning.handle_missing
  simp only [String.reduceEq, reduceIte, hc]
  refine ⟨trivial, trivial, fun name colX hname => ?_⟩
  exact (getCol_mapCols t (maskKeep nonNull col.cells t.index)
    (fun k => ⟨k.dtype, maskKeep nonNull col.cells k.cells⟩) name).trans
    (by rw [hname]; rfl)

/-- C1 counterexample: on a two-row table whose column `c` is missing in row
0, `handle_missing(c, "drop")` keeps exactly row 1 but leaves its pandas
index label `1`: the result's row indices are `[1]`, not the dense
`0..n-1` sequence (`[0]`) the claim asserts. -/
theorem c1_counterexample :
    (data_cleaning.handle_missing c1Table "c" "drop").2 = none ∧
    (data_cleaning.handle_missing c1Table "c" "drop").1.index = [1] ∧
    (data_cleaning.handle_missing c1Table "c" "drop").1.index ≠
      List.range (data_cleaning.handle_missing c1Table "c" "drop").1.nrows := by
  decide

/-- Witness instantiating `c1_drop_keeps_nonmissing_rows_without_reindex` on
a concrete table. -/
theorem c1_witness :
    getCol c1Table "c" = some ⟨.numeric, [.missing, .num (pnInt 1)]⟩ ∧
    (data_cleaning.handle_missing c1Table "c" "drop").1.index =
      maskKeep nonNull [Value.missing, .num (pnInt 1)] [0, 1] :=
  ⟨by decide,
    (c1_drop_keeps_nonmissing_rows_without_reindex c1Table "c"
      ⟨.numeric, [.missing, .num (pnInt 1)]⟩ (by decide)).2.1⟩

/-! ## Reduced fractions: pandas numeric equality versus cell equality -/

theorem natGcdF_eq_gcd (f : Nat) : ∀ m n : Nat, m < f → natGcdF f m n = Nat.gcd m n := by
  induction f with
  | zero => intro m n h; omega
  | succ f ih =>
    intro m n h
    match m with
    | 0 => simp [natGcdF, Nat.gcd]
    | m + 1 =>
      have hlt : n % (m + 1) < f := by
        have := Nat.mod_lt n (y := m + 1) (by omega)
        omega
      simp only [natGcdF, ih _ _ hlt]
      exact (Nat.gcd_succ m n).symm

theorem natGcd_eq_gcd (m n : Nat) : natGcd m n = Nat.gcd m n :=
  natGcdF_eq_gcd (m + 1) m n (Nat.lt_succ_self m)

/-- On canonical representations, pandas numeric equality (cross
multiplication) coincides with representation equality. -/
theorem reduced_eqv_iff (a b : PyNum) (ha : a.reduced) (hb : b.reduced) :
    PyNum.eqv a b = true ↔ a = b := by
  constructor
  · intro h
    have hcross : a.num * (b.den : Int) = b.num * (a.den : Int) := by
      simpa [PyNum.eqv] using h
    have had : ((a.den : ℚ)) ≠ 0 := by exact_mod_cast ha.1.ne'
    have hbd : ((b.den : ℚ)) ≠ 0 := by exact_mod_cast hb.1.ne'
    have hq : (a.num : ℚ) / (a.den : ℚ) = (b.num : ℚ) / (b.den : ℚ) := by
      rw [div_eq_div_iff had hbd]
      exact_mod_cast congrArg (fun z : Int => (z : ℚ)) hcross
    have hra : (Rat.mk' a.num a.den ha.1.ne' ha.2 : ℚ) = Rat.mk' b.num b.den hb.1.ne' hb.2 := by
      rw [← Rat.num_div_den (Rat.mk' a.num a.den ha.1.ne' ha.2),
        ← Rat.num_div_den (Rat.mk' b.num b.den hb.1.ne' hb.2)]
      exact hq
    obtain ⟨h1, h2⟩ := Rat.mk'.inj hra
    cases a; cases b
    simp_all
  · intro h
    subst h
    simp [PyNum.eqv]

/-- Boolean pandas equality against a non-missing canonical value agrees with
plain cell equality on canonical cells. -/
theorem pandasEq_eq_decide (x v : Value) (hx : reducedV x) (hv' : reducedV v)
    (hv : v ≠ .missing) : pandasEq x v = decide (x = v) := by
  cases x with
  | num a =>
    cases v with
    | num b =>
      by_cases h : a = b
      · subst h
        simp [pandasEq, (reduced_eqv_iff a a hx hv').mpr rfl]
      · have hne : PyNum.eqv a b = false := by
          by_contra hc
          simp only [Bool.not_eq_false] at hc
          exact h ((reduced_eqv_iff a b hx hv').mp hc)
        simp [pandasEq, hne, h]
    | str s => simp [pandasEq]
    | missing => exact absurd rfl hv
  | str s =>
    cases v with
    | num b => simp [pandasEq]
    | str s2 => by_cases h : s = s2 <;> simp [pandasEq, h]
    | missing => exact absurd rfl hv
  | missing =>
    cases v with
    | num b => simp [pandasEq]
    | str s => simp [pandasEq]
    | missing => exact absurd rfl hv

theorem maskKeep_congr {α : Type} (k1 k2 : Value → Bool) (guide : List Value) (xs : List α)
    (h : ∀ g ∈ guide, k1 g = k2 g) : maskKeep k1 guide xs = maskKeep k2 guide xs := by
  unfold maskKeep
  congr 1
  apply List.filter_congr
  intro p hp
  obtain ⟨a, b⟩ := p
  exact h a (List.of_mem_zip hp).1

/-! ## Claim C5 — `filter_by_column` -/

/-- C5: for every table, column `c` present in it and non-missing canonical
value `v`, `filter_by_column(c, v)` succeeds and replaces the table with
exactly the rows whose `c` cell equals `v` (plain cell equality: same kind
and same value, no coercion across kinds), every column filtered
consistently, kept rows in their original relative order, and the row index
labels of the kept rows are retained unchanged (no renumbering). -/
theorem c5_filter_keeps_exactly_equal_rows
    (t : Table) (c : String) (v : Value) (col : Col)
    (hc : getCol t c = some col) (hv : v ≠ .missing)
    (hred : ∀ x ∈ col.cells, reducedV x) (hvred : reducedV v) :
    (data_cleaning.filter_by_column t c v).2 = none ∧
    (data_cleaning.filter_by_column t c v).1.index =
      maskKeep (fun x => decide (x = v)) col.cells t.index ∧
    ∀ name colX, getCol t name = some colX →
      getCol (data_cleaning.filter_by_column t c v).1 name =
        some ⟨colX.dtype, maskKeep (fun x => decide (x = v)) col.cells colX.cells⟩ := by
  have hk : ∀ g ∈ col.cells, (fun x => pandasEq x v) g = (fun x => decide (x = v)) g :=
    fun g hg => pandasEq_eq_decide g v (hred g hg) hvred hv
  unfold data_cleaning.filter_by_column
  simp only [hc]
  refine ⟨trivial, maskKeep_congr _ _ _ _ hk, fun name colX hname => ?_⟩
  refine (getCol_mapCols t (maskKeep (fun x => pandasEq x v) col.cells t.index)
    (fun k => ⟨k.dtype, maskKeep (fun x => pandasEq x v) col.cells k.cells⟩) name).trans ?_
  rw [hname]
  simp only [Option.map_some']
  rw [maskKeep_congr _ _ _ _ hk]

/-- Witness instantiating `c5_filter_keeps_exactly_equal_rows` on the spec's
own example rows `{C=1},{C=2},{C=1}` with `v = 1`. -/
theorem c5_witness :
    getCol c5Table "c" = some ⟨.numeric, [.num (pnInt 1), .num (pnInt 2), .num (pnInt 1)]⟩ ∧
    (data_cleaning.filter_by_column c5Table "c" (.num (pnInt 1))).1.index =
      maskKeep (fun x => decide (x = Value.num (pnInt 1)))
        [Value.num (pnInt 1), .num (pnInt 2), .num (pnInt 1)] [0, 1, 2] :=
  ⟨by decide,
    (c5_filter_keeps_exactly_equal_rows c5Table "c" (.num (pnInt 1))
      ⟨.numeric, [.num (pnInt 1), .num (pnInt 2), .num (pnInt 1)]⟩
      (by decide) (by decide) (by decide) (by decide)).2.1⟩

/-! ## Claim C6 — `handle_missing(C, "mean")` -/

/-- C6: for every numeric column `C` (no string cells) containing at least
one missing and at least one non-missing value, `handle_missing(C, "mean")`
succeeds, leaves zero missing values in `C`, fills every previously-missing
cell with the arithmetic mean of the pre-call non-missing values, and leaves
every previously non-missing cell unchanged. -/
theorem c6_mean_fills_missing_with_premean
    (t : Table) (c : String) (col : Col)
    (hc : getCol t c = some col)
    (hnum : ∀ v ∈ col.cells, isStrV v = false)
    (hmiss : Value.missing ∈ col.cells)
    (hsome : ∃ v ∈ col.cells, isNumV v = true) :
    (data_cleaning.handle_missing t c "mean").2 = none ∧
    ∃ col', getCol (data_cleaning.handle_missing t c "mean").1 c = some col' ∧
      col'.dtype = col.dtype ∧
      col'.cells = col.cells.map
        (fun v => if v = .missing then .num (meanOf col.cells) else v) ∧
      ∀ v ∈ col'.cells, v ≠ .missing := by
  have hany : col.cells.any isStrV = false := by
    simp only [List.any_eq_false]
    intro x hx
    simp [hnum x hx]
  have hcnt : (numsOf col.cells).length ≠ 0 := by
    obtain ⟨v, hv, hnumv⟩ := hsome
    match v, hnumv with
    | .num q, _ =>
      have hmem : q ∈ numsOf col.cells := List.mem_filterMap.mpr ⟨.num q, hv, rfl⟩
      intro hlen
      rw [List.length_eq_zero] at hlen
      simp [hlen] at hmem
  unfold data_cleaning.handle_missing
  simp only [String.reduceEq, reduceIte, hc, hany, Bool.false_eq_true, if_false]
  rw [if_neg hcnt]
  refine ⟨trivial, ⟨col.dtype, col.cells.map (fillNA (.num (meanOf col.cells)))⟩,
    getCol_setCol_self t c _ col hc, rfl, ?_, ?_⟩
  · refine List.map_congr_left (fun v _ => ?_)
    cases v <;> rfl
  · intro v hvmem
    obtain ⟨w, hw, hwv⟩ := List.mem_map.mp hvmem
    subst hwv
    cases w <;> simp [fillNA]

/-- Witness instantiating `c6_mean_fills_missing_with_premean` on the rows
`[1, NaN, 3]` (whose pre-fill mean is `2`). -/
theorem c6_witness :
    Value.missing ∈ [Value.num (pnInt 1), Value.missing, Value.num (pnInt 3)] ∧
    (data_cleaning.handle_missing c6Table "c" "mean").2 = none :=
  ⟨by decide,
    (c6_mean_fills_missing_with_premean c6Table "c"
      ⟨.numeric, [.num (pnInt 1), .missing, .num (pnInt 3)]⟩
      (by decide) (by decide) (by decide) (by decide)).1⟩

/-! ## Claim C8 — idempotence of `strip_spaces` -/

theorem dropWhile_dropWhile (p : Char → Bool) (l : List Char) :
    (l.dropWhile p).dropWhile p = l.dropWhile p := by
  induction l with
  | nil => rfl
  | cons c cs ih =>
    by_cases h : p c
    · simp [List.dropWhile_cons, h, ih]
    · simp [List.dropWhile_cons, h]

theorem dropWhile_eq_self_of_isPre (p : Char → Bool) (l u : List Char)
    (hl : l.dropWhile p = l) (hu : u <+: l) : u.dropWhile p = u := by
  cases u with
  | nil => rfl
  | cons a as =>
    cases l with
    | nil =>
      have := hu.length_le
      simp at this
    | cons b bs =>
      have hab : a = b := by
        obtain ⟨w, hw⟩ := hu
        simp only [List.cons_append] at hw
        exact (List.cons.inj hw).1
      subst hab
      have hpb : p a = false := by
        by_contra hp
        simp only [Bool.not_eq_false] at hp
        rw [List.dropWhile_cons, if_pos hp] at hl
        have hlen := congrArg List.length hl
        have hle := (List.dropWhile_sublist (l := bs) p).length_le
        simp only [List.length_cons] at hlen
        omega
      simp [List.dropWhile_cons, hpb]

theorem stripList_idem (l : List Char) : stripList (stripList l) = stripList l := by
  unfold stripList
  set y := l.dropWhile isPySpace with hy
  have hAy : y.dropWhile isPySpace = y := dropWhile_dropWhile isPySpace l
  set r := (y.reverse.dropWhile isPySpace).reverse with hr
  have hru : r <+: y := by
    have hsuf : y.reverse.dropWhile isPySpace <:+ y.reverse := List.dropWhile_suffix _
    have := List.reverse_prefix.mpr hsuf
    simpa [hr] using this
  have hAr : r.dropWhile isPySpace = r :=
    dropWhile_eq_self_of_isPre isPySpace y r hAy hru
  rw [hAr, hr, List.reverse_reverse, dropWhile_dropWhile]

theorem pyStrip_idem (s : String) : pyStrip (pyStrip s) = pyStrip s := by
  unfold pyStrip
  exact congrArg String.mk (stripList_idem s.data)

theorem strCell_pyStrip_idem (v : Value) :
    strCell pyStrip (strCell pyStrip v) = strCell pyStrip v := by
  cases v <;> simp [strCell, pyStrip_idem]

/-- C8: for every table and text-typed (`object`) column `C` present in it,
`strip_spaces(C)` is idempotent — applying it twice yields exactly the same
table (and the same non-error outcome) as applying it once. -/
theorem c8_strip_spaces_idempotent (t : Table) (c : String) (col : Col)
    (hc : getCol t c = some col) (hdt : col.dtype = .object) :
    data_cleaning.strip_spaces (data_cleaning.strip_spaces t c).1 c =
      data_cleaning.strip_spaces t c := by
  have hmapmap : (col.cells.map (strCell pyStrip)).map (strCell pyStrip)
      = col.cells.map (strCell pyStrip) := by
    rw [List.map_map]
    exact List.map_congr_left (fun v _ => by
      simp only [Function.comp_apply, strCell_pyStrip_idem])
  have hset := getCol_setCol_self t c
    ⟨.object, col.cells.map (strCell pyStrip)⟩ col hc
  unfold data_cleaning.strip_spaces
  simp only [hc, hdt, ne_eq, reduceCtorEq, not_false_eq_true, if_neg, reduceIte,
    not_true_eq_false, if_false, hset, hmapmap, setCol_setCol]

/-- Witness instantiating `c8_strip_spaces_idempotent` on a concrete
object column. -/
theorem c8_witness :
    getCol c8Table "c" = some ⟨Dtype.object, [Value.str "  a  ", Value.missing]⟩ ∧
    data_cleaning.strip_spaces (data_cleaning.strip_spaces c8Table "c").1 "c" =
      data_cleaning.strip_spaces c8Table "c" :=
  ⟨by decide,
    c8_strip_spaces_idempotent c8Table "c"
      ⟨.object, [.str "  a  ", .missing]⟩ (by decide) rfl⟩

/-! ## Claim C4 — `remove_text` in literal mode -/

theorem hasSub_single_removeAll (p : Char) (l : List Char) :
    hasSub [p] (removeAll p [] l) = false := by
  unfold removeAll
  induction l with
  | nil => simp [removeAllAux, hasSub, leadsWith]
  | cons c cs ih =>
    rw [removeAllAux]
    by_cases h : p == c
    · simp only [leadsWith, Bool.and_true, h, if_pos, List.length_nil]
      exact ih
    · simp only [leadsWith, Bool.and_true, h, Bool.false_eq_true, if_false]
      simp only [hasSub, leadsWith, Bool.and_true, h, Bool.false_or]
      exact ih

/-- C4 (amended): `remove_text(C, P)` in literal mode deletes the
left-to-right non-overlapping occurrences of `P` in one pass.  For a
single-character pattern this leaves no occurrence of `P` in any value of
`C`; for longer patterns the deletions can splice the remaining fragments
into a new occurrence (see `c4_counterexample`), so the claim holds as
stated only for single-character patterns. -/
theorem c4_remove_single_char_leaves_no_occurrence
    (t : Table) (c : String) (p : Char) (col : Col)
    (hc : getCol t c = some col) (hdt : col.dtype = .object) :
    (data_cleaning.remove_text t c ⟨[p]⟩).2 = none ∧
    ∃ col', getCol (data_cleaning.remove_text t c ⟨[p]⟩).1 c = some col' ∧
      ∀ v ∈ col'.cells, ∀ s, v = .str s → hasSub [p] s.data = false := by
  have hset := getCol_setCol_self t c
    ⟨.object, col.cells.map (strCell (fun s => pyReplace s ⟨[p]⟩))⟩ col hc
  unfold data_cleaning.remove_text
  simp only [hc, hdt, ne_eq, reduceCtorEq, not_false_eq_true, if_neg, reduceIte,
    not_true_eq_false, if_false]
  refine ⟨trivial, _, hset, fun v hv s hs => ?_⟩
  obtain ⟨w, hw, hwv⟩ := List.mem_map.mp hv
  subst hwv
  cases w with
  | str s0 =>
    simp only [strCell, Value.str.injEq] at hs
    subst hs
    exact hasSub_single_removeAll p s0.data
  | num q => simp [strCell] at hs
  | missing => simp [strCell] at hs

/-- C4 counterexample: deleting the literal pattern `"ab"` from `"aabb"`
removes its one occurrence but splices the leftover `"a"` and `"b"` into a
fresh `"ab"`: `remove_text` succeeds, yet the resulting value still contains
the pattern as a substring, contradicting the claim. -/
theorem c4_counterexample :
    (data_cleaning.remove_text c4Table "c" "ab").2 = none ∧
    getCol (data_cleaning.remove_text c4Table "c" "ab").1 "c" =
      some ⟨.object, [.str "ab"]⟩ ∧
    hasSub "ab".data "ab".data = true := by
  decide

/-- Witness instantiating `c4_remove_single_char_leaves_no_occurrence` with
the single-character pattern `'a'`. -/
theorem c4_witness :
    getCol c4Table "c" = some ⟨Dtype.object, [Value.str "aabb"]⟩ ∧
    (data_cleaning.remove_text c4Table "c" ⟨['a']⟩).2 = none :=
  ⟨by decide,
    (c4_remove_single_char_leaves_no_occurrence c4Table "c" 'a'
      ⟨.object, [.str "aabb"]⟩ (by decide) rfl).1⟩

/-! ## Claims C9 and C7 — `aggregate_data` method dispatch -/

theorem pyLowerChar_idem (c : Char) : pyLowerChar (pyLowerChar c) = pyLowerChar c := by
  unfold pyLowerChar
  by_cases h : 65 ≤ c.toNat ∧ c.toNat ≤ 90
  · simp only [if_pos h]
    obtain ⟨h1, h2⟩ := h
    generalize c.toNat = n at h1 h2
    interval_cases n <;> decide
  · simp only [if_neg h]

theorem pyLower_idem (s : String) : pyLower (pyLower s) = pyLower s := by
  unfold pyLower
  simp only [List.map_map]
  exact congrArg String.mk
    (List.map_congr_left (fun c _ => by simp only [Function.comp_apply, pyLowerChar_idem]))

/-- C9: aggregation method selection is case-insensitive — for every table,
group-column list and method string `m`, `aggregate_data(G, m)` behaves
exactly as `aggregate_data(G, lowercase(m))`, because the source dispatches
on `aggregate_method.lower()`. -/
theorem c9_aggregate_method_case_insensitive (t : Table) (G : List String) (m : String) :
    data_cleaning.aggregate_data t G m = data_cleaning.aggregate_data t G (pyLower m) := by
  unfold data_cleaning.aggregate_data
  simp only [pyLower_idem]

/-- C7 counterexample: the method string `"SUM"` is not an element of the
literal set {mean, min, max, sum, count, median}, yet `aggregate_data`
lowercases it and performs the sum reduction (x ↦ 4), not the mean fallback
(x ↦ 2): the claim's quantification over "every method string not in the
set" fails at `"SUM"`. -/
theorem c7_counterexample :
    ("SUM" ∉ (["mean", "min", "max", "sum", "count", "median"] : List String)) ∧
    data_cleaning.aggregate_data c7Table ["G"] "SUM" ≠
      data_cleaning.aggregate_data c7Table ["G"] "mean" := by
  decide

/-- C7 (amended): for every method string whose LOWERCASING is not in
{mean, min, max, sum, count, median}, `aggregate_data(G, method)` produces
exactly the same table as `aggregate_data(G, "mean")`: the final `else` of
the dispatch repeats the mean reduction. -/
theorem c7_unrecognized_method_falls_back_to_mean
    (t : Table) (G : List String) (m : String)
    (h : pyLower m ∉ (["mean", "min", "max", "sum", "count", "median"] : List String)) :
    data_cleaning.aggregate_data t G m = data_cleaning.aggregate_data t G "mean" := by
  simp only [List.mem_cons, List.not_mem_nil, or_false, not_or] at h
  obtain ⟨h1, h2, h3, h4, h5, h6⟩ := h
  unfold data_cleaning.aggregate_data
  rw [show pyLower "mean" = "mean" from by decide]
  simp only [if_neg h1, if_neg h2, if_neg h3, if_neg h4, if_neg h5, if_neg h6,
    String.reduceEq, reduceIte]

/-- Witness instantiating `c7_unrecognized_method_falls_back_to_mean` with
the unrecognised method string `"avg"`. -/
theorem c7_witness :
    (pyLower "avg" ∉ (["mean", "min", "max", "sum", "count", "median"] : List String)) ∧
    data_cleaning.aggregate_data c7Table ["G"] "avg" =
      data_cleaning.aggregate_data c7Table ["G"] "mean" :=
  ⟨by decide, c7_unrecognized_method_falls_back_to_mean c7Table ["G"] "avg" (by decide)⟩

/-! ## Claim C2 — `sort_column` -/

/-- C2 (amended): every outcome `t'` that `sort_column(c, ascending)` can
produce (the quicksort contract `sortOk`: a row permutation with the column
ordered, NaN last, and `reset_index(drop=True)` applied) has `c`'s values in
non-decreasing order when ascending and non-increasing order when descending,
an unchanged row count, rows that are a permutation of the input rows, and
row indices renumbered densely from 0.  Stability is NOT guaranteed: the
default `kind='quicksort'` admits non-stable outcomes (`c2_counterexample`),
so the claim's stability clause is dropped. -/
theorem c2_sort_sorted_permutation_dense
    (t : Table) (c : String) (asc : Bool) (t' : Table)
    (h : data_cleaning.sortOk t c asc t') :
    (∃ col', getCol t' c = some col' ∧ chainB (naLastLe asc) col'.cells = true) ∧
    t'.nrows = t.nrows ∧
    t'.index = List.range t'.nrows ∧
    (data_cleaning.rowsOf t').Perm (data_cleaning.rowsOf t) := by
  obtain ⟨hsome, hschema, hwf, hperm, hidx, hsorted⟩ := h
  have hn : t'.nrows = t.nrows := by
    simp [Table.nrows, hidx]
  refine ⟨?_, hn, by rw [hidx, hn], hperm⟩
  unfold data_cleaning.sortedColB at hsorted
  cases hg : getCol t' c with
  | none => rw [hg] at hsorted; simp [Option.any] at hsorted
  | some col' =>
    rw [hg] at hsorted
    exact ⟨col', rfl, by simpa [Option.any] using hsorted⟩

/-- C2 counterexample: on two rows with equal sort keys, the contract of
`sort_values(kind='quicksort')` admits the key-ordered permutation that
swaps the two rows — `sortOk` holds for it — yet the equal-key rows do not
keep their original relative order (the rows differ from the unique stable
outcome), refuting the claim's stability clause. -/
theorem c2_counterexample :
    data_cleaning.sortOk c2Table "k" true c2Swapped ∧
    data_cleaning.rowsOf c2Swapped ≠ stableSortedRows c2Table "k" true := by
  decide

/-- Witness instantiating `c2_sort_sorted_permutation_dense` on a concrete
two-row sort. -/
theorem c2_witness :
    data_cleaning.sortOk c2In "k" true c2Out ∧ c2Out.nrows = c2In.nrows :=
  ⟨by decide, (c2_sort_sorted_permutation_dense c2In "k" true c2Out (by decide)).2.1⟩

/-! ## Claim C3 — errors abort without partial mutation -/

/-- C3: in every operation of the class other than `save_data` (which never
raises), every input on which the operation raises leaves `self.df` exactly
as it was: the embedded operations return the incoming table unchanged
whenever they report an error, for the function-embedded operations
(`runOp`) as well as for every erroring execution of the relational
`sort_column` (`sortStep`); each raise in the source happens before any
assignment to `self.df`. -/
theorem c3_errors_leave_table_unchanged :
    (∀ (t : Table) (op : data_cleaning.Op) (e : Err),
      (data_cleaning.runOp op t).2 = some e → (data_cleaning.runOp op t).1 = t) ∧
    (∀ (t : Table) (c : String) (asc : Bool) (r : Table × Option Err) (e : Err),
      data_cleaning.sortStep t c asc r → r.2 = some e → r.1 = t) := by
  constructor
  · intro t op e
    cases op with
    | removeText c s =>
      unfold data_cleaning.runOp data_cleaning.remove_text
      (repeat' split) <;> intro h <;> first | rfl | simp_all
    | stripSpaces c =>
      unfold data_cleaning.runOp data_cleaning.strip_spaces
      (repeat' split) <;> intro h <;> first | rfl | simp_all
    | handleMissing c s =>
      unfold data_cleaning.runOp data_cleaning.handle_missing
      (repeat' split) <;> intro h <;> first | rfl | simp_all
    | dropCols cs =>
      unfold data_cleaning.runOp data_cleaning.drop
      (repeat' split) <;> intro h <;> first | rfl | simp_all
    | toFloat c =>
      unfold data_cleaning.runOp data_cleaning.to_float
      (repeat' split) <;> intro h <;> first | rfl | simp_all
    | roundCol c d =>
      unfold data_cleaning.runOp data_cleaning.round
      (repeat' split) <;> intro h <;> first | rfl | simp_all
    | newColumn c items =>
      unfold data_cleaning.runOp data_cleaning.new_column
      (repeat' split) <;> intro h <;> first | rfl | simp_all
    | aggregateData cs m =>
      unfold data_cleaning.runOp data_cleaning.aggregate_data
      (repeat' split) <;> intro h <;> first | rfl | simp_all
    | filterByColumn c v =>
      unfold data_cleaning.runOp data_cleaning.filter_by_column
      (repeat' split) <;> intro h <;> first | rfl | simp_all
  · intro t c asc r e hstep h2
    unfold data_cleaning.sortStep at hstep
    cases hg : getCol t c with
    | none =>
      rw [hg] at hstep
      rw [hstep]
    | some col =>
      rw [hg] at hstep
      rw [hstep.1] at h2
      cases h2

/-- Witness instantiating `c3_errors_leave_table_unchanged` on a concrete
erroring call: `remove_text` on a numeric column raises its `Exception` and
the table is exactly as before. -/
theorem c3_witness :
    (data_cleaning.runOp (.removeText "n" "x") c3Table).2 = some .exception ∧
    (data_cleaning.runOp (.removeText "n" "x") c3Table).1 = c3Table :=
  ⟨by decide,
    c3_errors_leave_table_unchanged.1 c3Table (.removeText "n" "x") .exception (by decide)⟩

/-! ## Claim C10 — the two duplicate source variants agree -/

/-- C10: the two copies of `DataCleaner` are behaviourally equivalent on
their shared operation surface: for every starting table and arguments, each
operation defined in both files — `remove_text` called without a regex
argument (both then run the literal `regex=False` path), `strip_spaces`,
`handle_missing`, `drop`, `save_data`, `preview`, `to_float`, `round`,
`new_column` — produces the same resulting table and the same error (or
non-error) outcome in both variants. -/
theorem c10_duplicate_variants_equivalent :
    (∀ (t : Table) (c s : String),
      data_cleaning.remove_text t c s = data_cleaning_dash.remove_text t c s) ∧
    (∀ (t : Table) (c : String),
      data_cleaning.strip_spaces t c = data_cleaning_dash.strip_spaces t c) ∧
    (∀ (t : Table) (c st : String),
      data_cleaning.handle_missing t c st = data_cleaning_dash.handle_missing t c st) ∧
    (∀ (t : Table) (cs : List String),
      data_cleaning.drop t cs = data_cleaning_dash.drop t cs) ∧
    (∀ (t : Table) (p : String),
      data_cleaning.save_data t p = data_cleaning_dash.save_data t p) ∧
    (∀ (t : Table) (n : Nat),
      data_cleaning.preview t n = data_cleaning_dash.preview t n) ∧
    (∀ (t : Table) (c : String),
      data_cleaning.to_float t c = data_cleaning_dash.to_float t c) ∧
    (∀ (t : Table) (c : String) (d : Nat),
      data_cleaning.round t c d = data_cleaning_dash.round t c d) ∧
    (∀ (t : Table) (c : String) (items : List Value),
      data_cleaning.new_column t c items = data_cleaning_dash.new_column t c items) :=
  ⟨fun _ _ _ => rfl, fun _ _ => rfl, fun _ _ _ => rfl, fun _ _ => rfl, fun _ _ => rfl,
   fun _ _ => rfl, fun _ _ => rfl, fun _ _ _ => rfl, fun _ _ _ => rfl⟩

end DC

